import Mathlib

/-!
Shallow embedding of the whatsapp-companion core: the token ledger, the
scoring engine, the shame-escalation decision function, the onboarding
parsers, the nightly-lock flow state machine, and the message-router
branch relevant to the `reset` command.  Every definition is translated
from the TypeScript source; the daily-log store is modelled as a list of
rows, JS objects (`Record<string, number>`) as association lists with
replace-or-append update, and machine numbers as `Int`.
-/

/-- A loss event appended to a `TokenRecord`, from `src/db/queries.ts`. -/
structure LossEvent where
  date : String
  reason : String
  amount : Int
deriving DecidableEq

/-- The per-(user, week) token ledger row, from `src/db/queries.ts`
(schema defaults: 7 starting tokens, 7 current). -/
structure TokenRecord where
  starting_tokens : Int
  current_tokens : Int
  loss_events : List LossEvent
  punishment_triggered : Bool
deriving DecidableEq

/-- The fresh ledger row created by `getOrCreateWeekTokens` (schema
defaults of the `tokens` table). -/
def freshTokenRecord : TokenRecord :=
  { starting_tokens := 7
    current_tokens := 7
    loss_events := []
    punishment_triggered := false }

/-- `deductToken` from `src/db/queries.ts`: clamp the balance at zero,
append one loss event, and set `punishment_triggered` to whether the new
balance is exactly zero.  The current date is passed explicitly (the
source reads the clock). -/
def deductToken (tokens : TokenRecord) (date reason : String) (amount : Int) :
    TokenRecord :=
  let newAmount := max 0 (tokens.current_tokens - amount)
  { tokens with
    current_tokens := newAmount
    loss_events := tokens.loss_events ++ [⟨date, reason, amount⟩]
    punishment_triggered := decide (newAmount = 0) }

/-- The user row fields referenced by the modelled functions, from
`src/db/queries.ts` (`interface User`); the remaining columns are not
read by any function embedded here. -/
structure User where
  name : Option String
  shame_level : Int
  loss_aversion_enabled : Bool
  onboarding_complete : Bool
  onboarding_step : String
deriving DecidableEq

/-- Failure severity taken by `processFailure` (loss-aversion flow). -/
inductive Severity
  | minor
  | major
deriving DecidableEq

/-- The fixed zero-token message of `processFailure`. -/
def zeroTokensMessage : String :=
  "🚨 ZERO TOKENS\n\nYou\x27ve lost all 7 tokens this week.\n\nThe pre-agreed punishment is now active.\n\nThis is the cost of breaking your commitment.\n\nNext week starts fresh. But this week, you pay the price."

/-- `processFailure` from the loss-aversion flow: a no-op returning the
empty reply when the user has loss aversion disabled; otherwise deduct 1
(minor) or 2 (major) tokens and build the reply.  The ledger row the
source obtains via `getOrCreateWeekTokens` is threaded explicitly. -/
def processFailure (user : User) (date reason : String) (severity : Severity)
    (tokens : TokenRecord) : String × TokenRecord :=
  if !user.loss_aversion_enabled then ("", tokens)
  else
    let amount : Int := match severity with | .major => 2 | .minor => 1
    let t := deductToken tokens date reason amount
    if t.punishment_triggered then (zeroTokensMessage, t)
    else
      let remaining := t.current_tokens
      let emoji := if remaining ≤ 2 then "⚠️" else "📉"
      (emoji ++ " Token lost: " ++ reason ++ "\n\nRemaining this week: " ++
        toString remaining ++ "/7\n\n" ++
        (if remaining ≤ 2 then "You\x27re running low. Every action counts now." else ""),
        t)

/-- The daily-plan value object, from `src/db/queries.ts`. -/
structure TomorrowPlan where
  eating_window : String
  first_meal : String
  walk_time : String
  strength : Bool
  danger_moment : String
deriving DecidableEq

/-- A `daily_logs` row, from `src/db/queries.ts` / `schema.sql`; the JS
`scores` object is an association list from action name to points. -/
structure DailyLog where
  user_id : String
  date : String
  scores : List (String × Int)
  total_score : Int
  tomorrow_locked : Bool
  tomorrow_plan : Option TomorrowPlan
  miss_reason : Option String
  notes : Option String
deriving DecidableEq

/-- `checkDailyFailures` from the loss-aversion flow: below 50 % of the
possible points costs a minor token, a missed nightly lock a major one;
both are skipped entirely when loss aversion is disabled.  The JS float
comparison `total_score < totalPossible * 0.5` is exact on integers and
is rendered over `ℚ`. -/
def checkDailyFailures (user : User) (todayLog : DailyLog) (totalPossible : Int)
    (date : String) (tokens : TokenRecord) : List String × TokenRecord :=
  if !user.loss_aversion_enabled then ([], tokens)
  else
    let (msgs1, tokens1) :=
      if (todayLog.total_score : ℚ) < (totalPossible : ℚ) / 2 then
        let (m, t) := processFailure user date
          ("Score " ++ toString todayLog.total_score ++ "/" ++ toString totalPossible)
          .minor tokens
        (if m = "" then ([] : List String) else [m], t)
      else ([], tokens)
    let (msgs2, tokens2) :=
      if !todayLog.tomorrow_locked then
        let (m, t) := processFailure user date "Missed nightly lock" .major tokens1
        (if m = "" then ([] : List String) else [m], t)
      else ([], tokens1)
    (msgs1 ++ msgs2, tokens2)

/-- C1: a `deductToken` update on a well-formed ledger row with a positive
amount keeps `0 ≤ current_tokens ≤ starting_tokens`, sets
`punishment_triggered` exactly when the new balance is zero, clamps the
balance to `max 0 (current - amount)`, and appends exactly one loss event
to the existing ordered list. -/
theorem deductToken_invariant (t : TokenRecord) (date reason : String) (amount : Int)
    (h0 : 0 ≤ t.current_tokens) (h1 : t.current_tokens ≤ t.starting_tokens)
    (ha : 0 < amount) :
    0 ≤ (deductToken t date reason amount).current_tokens ∧
    (deductToken t date reason amount).current_tokens ≤
      (deductToken t date reason amount).starting_tokens ∧
    ((deductToken t date reason amount).punishment_triggered = true ↔
      (deductToken t date reason amount).current_tokens = 0) ∧
    (deductToken t date reason amount).current_tokens =
      max 0 (t.current_tokens - amount) ∧
    (deductToken t date reason amount).loss_events =
      t.loss_events ++ [⟨date, reason, amount⟩] ∧
    (deductToken t date reason amount).starting_tokens = t.starting_tokens := by
  refine ⟨?_, ?_, ?_, rfl, rfl, rfl⟩
  · simp [deductToken]
  · simp only [deductToken]
    omega
  · simp [deductToken]

/-- Witness for C1 at a concrete ledger row. -/
theorem deductToken_invariant_witness :
    0 ≤ (deductToken freshTokenRecord "2024-01-01" "Missed nightly lock" 2).current_tokens ∧
    (deductToken freshTokenRecord "2024-01-01" "Missed nightly lock" 2).loss_events =
      [⟨"2024-01-01", "Missed nightly lock", 2⟩] := by
  have h := deductToken_invariant freshTokenRecord "2024-01-01" "Missed nightly lock" 2
    (by decide) (by decide) (by decide)
  exact ⟨h.1, by simpa [freshTokenRecord] using h.2.2.2.2.1⟩

/-- C4: with `loss_aversion_enabled = false`, `processFailure` returns the
empty reply and leaves the ledger row untouched, and `checkDailyFailures`
returns no messages and the untouched ledger row. -/
theorem lossAversion_disabled_noop (user : User) (tokens : TokenRecord)
    (log : DailyLog) (totalPossible : Int) (date reason : String) (sev : Severity)
    (h : user.loss_aversion_enabled = false) :
    processFailure user date reason sev tokens = ("", tokens) ∧
    checkDailyFailures user log totalPossible date tokens = ([], tokens) := by
  constructor
  · simp [processFailure, h]
  · simp [checkDailyFailures, h]

/-- Witness for C4 at a concrete user, log and ledger row. -/
theorem lossAversion_disabled_noop_witness :
    processFailure
      { name := some "Ana", shame_level := 2, loss_aversion_enabled := false,
        onboarding_complete := true, onboarding_step := "complete" }
      "2024-01-01" "Missed nightly lock" .major freshTokenRecord =
      ("", freshTokenRecord) := by
  exact (lossAversion_disabled_noop
    { name := some "Ana", shame_level := 2, loss_aversion_enabled := false,
      onboarding_complete := true, onboarding_step := "complete" }
    freshTokenRecord
    { user_id := "u1", date := "2024-01-01", scores := [], total_score := 0,
      tomorrow_locked := false, tomorrow_plan := none, miss_reason := none,
      notes := none }
    10 "2024-01-01" "Missed nightly lock" .major rfl).1

/-- JS `String.prototype.toLowerCase` (ASCII, as the inputs here are),
written over the character list so that it evaluates by kernel
reduction. -/
def jsToLower (s : String) : String := String.mk (s.data.map Char.toLower)

/-- JS `String.prototype.toUpperCase` (ASCII). -/
def jsToUpper (s : String) : String := String.mk (s.data.map Char.toUpper)

/-- JS `String.prototype.trim`. -/
def jsTrim (s : String) : String :=
  String.mk (((s.data.dropWhile Char.isWhitespace).reverse.dropWhile
    Char.isWhitespace).reverse)

/-- A binary action of a contract, from `src/db/queries.ts`. -/
structure BinaryAction where
  name : String
  threshold : String
  points : Int
deriving DecidableEq

/-- The contract fields read by the modelled functions, from
`src/db/queries.ts` (`interface Contract`). -/
structure Contract where
  goal : String
  binary_actions : List BinaryAction
deriving DecidableEq

/-- A partial `daily_logs` update as passed to `upsertDailyLog`
(`Partial<DailyLog>`): `some v` means the key is present in the JS
updates object with value `v`; the key columns and `id`/`created_at`,
which no caller ever places in the updates object, are not represented. -/
structure DailyLogUpdate where
  scores : Option (List (String × Int)) := none
  total_score : Option Int := none
  tomorrow_locked : Option Bool := none
  tomorrow_plan : Option (Option TomorrowPlan) := none
  miss_reason : Option (Option String) := none
  notes : Option (Option String) := none
deriving DecidableEq

/-- The `UPDATE ... SET` step of `upsertDailyLog`: overwrite exactly the
columns present in the updates object. -/
def applyDailyLogUpdate (r : DailyLog) (u : DailyLogUpdate) : DailyLog :=
  { r with
    scores := u.scores.getD r.scores
    total_score := u.total_score.getD r.total_score
    tomorrow_locked := u.tomorrow_locked.getD r.tomorrow_locked
    tomorrow_plan := u.tomorrow_plan.getD r.tomorrow_plan
    miss_reason := u.miss_reason.getD r.miss_reason
    notes := u.notes.getD r.notes }

/-- The `INSERT` step of `upsertDailyLog`: a new row from the schema
defaults of `daily_logs` overwritten by the updates object. -/
def newDailyLog (uid date : String) (u : DailyLogUpdate) : DailyLog :=
  { user_id := uid
    date := date
    scores := u.scores.getD []
    total_score := u.total_score.getD 0
    tomorrow_locked := u.tomorrow_locked.getD false
    tomorrow_plan := u.tomorrow_plan.getD none
    miss_reason := u.miss_reason.getD none
    notes := u.notes.getD none }

/-- The key predicate `user_id = $1 AND date = $2` of `upsertDailyLog`. -/
def keyMatch (uid date : String) (r : DailyLog) : Bool :=
  r.user_id == uid && r.date == date

/-- `upsertDailyLog` from `src/db/queries.ts` over the `daily_logs` table
modelled as a list of rows: update the matching rows if one exists,
otherwise insert a fresh row. -/
def upsertDailyLog (table : List DailyLog) (uid date : String)
    (u : DailyLogUpdate) : List DailyLog :=
  match table.find? (keyMatch uid date) with
  | some _ => table.map (fun r => if keyMatch uid date r then applyDailyLogUpdate r u else r)
  | none => table ++ [newDailyLog uid date u]

/-- `getTodayLog` (a `queryOne` by user and date): the first matching row. -/
def getTodayLog (table : List DailyLog) (uid date : String) : Option DailyLog :=
  table.find? (keyMatch uid date)

/-- Replace-or-append update of a JS object key (`scores[name] = v`). -/
def setEntry : List (String × Int) → String → Int → List (String × Int)
  | [], k, v => [(k, v)]
  | (k', v') :: rest, k, v =>
      if k' == k then (k, v) :: rest else (k', v') :: setEntry rest k v

/-- JS object key read (`scores[name]`): the value at the first
occurrence of the key, if any. -/
def lookupEntry (scores : List (String × Int)) (k : String) : Option Int :=
  (scores.find? (fun p => p.1 == k)).map (·.2)

/-- `Object.values(scores).reduce((a, b) => a + b, 0)`. -/
def sumScores (scores : List (String × Int)) : Int :=
  (scores.map (·.2)).sum

/-- A structured score update, from `src/flows/scorecard.ts`. -/
structure ScoreUpdate where
  action : String
  completed : Bool
  value : Option Int := none
deriving DecidableEq

/-- The value returned by `updateScore`. -/
structure ScoreUpdateResult where
  newScore : Int
  totalPossible : Int
  message : String
deriving DecidableEq

/-- `updateScore` from `src/flows/scorecard.ts`: look the action up by
exact case-insensitive name; an unknown name yields a zero-effect result
with an explanatory message and no table change; otherwise set that
action's score to its full points or 0, recompute the total and upsert
today's log.  The current date and user id are explicit parameters. -/
def updateScore (contract : Contract) (update : ScoreUpdate) (uid today : String)
    (table : List DailyLog) : ScoreUpdateResult × List DailyLog :=
  let scores := ((getTodayLog table uid today).map (·.scores)).getD []
  match contract.binary_actions.find?
      (fun a => jsToLower a.name == jsToLower update.action) with
  | none =>
      ({ newScore := 0, totalPossible := 0,
         message := "Unknown action: " ++ update.action }, table)
  | some action =>
      let scores := setEntry scores action.name (if update.completed then action.points else 0)
      let totalScore := sumScores scores
      let totalPossible := (contract.binary_actions.map (·.points)).sum
      let table := upsertDailyLog table uid today
        { scores := some scores, total_score := some totalScore }
      let emoji := if update.completed then "✓" else "✗"
      ({ newScore := totalScore, totalPossible := totalPossible,
         message := emoji ++ " " ++ action.name ++ ": " ++
           toString (if update.completed then action.points else 0) ++ "/" ++
           toString action.points ++ " pts\n\nToday: " ++ toString totalScore ++
           "/" ++ toString totalPossible }, table)

/-- `applyDailyLogUpdate` never touches the key columns. -/
theorem applyDailyLogUpdate_key (r : DailyLog) (u : DailyLogUpdate) :
    (applyDailyLogUpdate r u).user_id = r.user_id ∧
    (applyDailyLogUpdate r u).date = r.date := ⟨rfl, rfl⟩

/-- `keyMatch` is invariant under the update step. -/
theorem keyMatch_applyDailyLogUpdate (uid date : String) (r : DailyLog)
    (u : DailyLogUpdate) :
    keyMatch uid date (applyDailyLogUpdate r u) = keyMatch uid date r := rfl

/-- `find?` over an appended list searches the left list first. -/
theorem find?_append {α : Type} (l₁ l₂ : List α) (p : α → Bool) :
    (l₁ ++ l₂).find? p =
      match l₁.find? p with
      | some x => some x
      | none => l₂.find? p := by
  induction l₁ with
  | nil => rfl
  | cons a l ih =>
    by_cases h : p a
    · simp [List.find?, h]
    · simp only [List.cons_append, List.find?, h]
      simpa [h] using ih

/-- `find?` commutes with a map that does not change the predicate. -/
theorem find?_map_invariant {α : Type} (l : List α) (f : α → α) (p : α → Bool)
    (h : ∀ x, p (f x) = p x) :
    (l.map f).find? p = (l.find? p).map f := by
  induction l with
  | nil => rfl
  | cons a l ih =>
    by_cases ha : p a
    · simp [List.find?, h a, ha]
    · simp only [List.map_cons, List.find?, h a, ha]
      simpa [ha] using ih

/-- Reading today's row back after an upsert: the updated existing row,
or the freshly inserted one. -/
theorem getTodayLog_upsert (table : List DailyLog) (uid date : String)
    (u : DailyLogUpdate) :
    getTodayLog (upsertDailyLog table uid date u) uid date =
      some (match getTodayLog table uid date with
            | some e => applyDailyLogUpdate e u
            | none => newDailyLog uid date u) := by
  unfold getTodayLog upsertDailyLog
  cases hf : table.find? (keyMatch uid date) with
  | none =>
    rw [find?_append, hf]
    simp [keyMatch, newDailyLog, List.find?]
  | some e =>
    have hpres : ∀ r, keyMatch uid date
        (if keyMatch uid date r then applyDailyLogUpdate r u else r) =
        keyMatch uid date r := by
      intro r
      by_cases hr : keyMatch uid date r <;>
        simp [hr, keyMatch_applyDailyLogUpdate]
    rw [find?_map_invariant _ _ _ hpres, hf]
    have he : keyMatch uid date e = true := List.find?_some hf
    simp [he]

/-- Key-matching rows of an upsert result carry the updated `scores` and
`total_score` when the updates object sets both. -/
theorem mem_upsert_scores (table : List DailyLog) (uid date : String)
    (s : List (String × Int)) (t : Int) (r : DailyLog)
    (hr : r ∈ upsertDailyLog table uid date { scores := some s, total_score := some t })
    (hk : keyMatch uid date r = true) :
    r.scores = s ∧ r.total_score = t := by
  unfold upsertDailyLog at hr
  cases hf : table.find? (keyMatch uid date) with
  | none =>
    rw [hf] at hr
    rcases List.mem_append.mp hr with hmem | hmem
    · exact absurd hk (by simpa using List.find?_eq_none.mp hf r hmem)
    · rcases List.mem_singleton.mp hmem with rfl
      exact ⟨rfl, rfl⟩
  | some e =>
    rw [hf] at hr
    rcases List.mem_map.mp hr with ⟨x, hx, rfl⟩
    by_cases hxk : keyMatch uid date x
    · simp only [hxk, if_true]
      exact ⟨rfl, rfl⟩
    · rw [if_neg hxk] at hk ⊢
      exact absurd hk (by simpa using hxk)

/-- Applying a scores/total update to a row that already carries those
values is the identity. -/
theorem applyDailyLogUpdate_scores_self (r : DailyLog) (s : List (String × Int))
    (t : Int) (hs : r.scores = s) (ht : r.total_score = t) :
    applyDailyLogUpdate r { scores := some s, total_score := some t } = r := by
  cases r
  simp_all [applyDailyLogUpdate]

/-- Writing the same scores/total pair a second time leaves the table
unchanged. -/
theorem upsert_scores_idem (table : List DailyLog) (uid date : String)
    (s : List (String × Int)) (t : Int) :
    upsertDailyLog (upsertDailyLog table uid date { scores := some s, total_score := some t })
        uid date { scores := some s, total_score := some t } =
      upsertDailyLog table uid date { scores := some s, total_score := some t } := by
  set u : DailyLogUpdate := { scores := some s, total_score := some t } with hu
  set t₁ := upsertDailyLog table uid date u with ht₁
  have hfind : t₁.find? (keyMatch uid date) =
      some (match getTodayLog table uid date with
            | some e => applyDailyLogUpdate e u
            | none => newDailyLog uid date u) := getTodayLog_upsert table uid date u
  unfold upsertDailyLog
  rw [hfind]
  have : ∀ r ∈ t₁, (if keyMatch uid date r then applyDailyLogUpdate r u else r) = r := by
    intro r hr
    by_cases hk : keyMatch uid date r
    · rw [if_pos hk]
      obtain ⟨hs', ht'⟩ := mem_upsert_scores table uid date s t r (ht₁ ▸ hr) hk
      exact applyDailyLogUpdate_scores_self r s t hs' ht'
    · exact if_neg hk
  rw [List.map_congr_left this]
  show List.map (fun a => a) t₁ = t₁
  exact List.map_id' t₁

/-- Updating the same key with the same value twice equals doing it once. -/
theorem setEntry_setEntry (s : List (String × Int)) (k : String) (v : Int) :
    setEntry (setEntry s k v) k v = setEntry s k v := by
  induction s with
  | nil => simp [setEntry]
  | cons p rest ih =>
    by_cases h : p.1 == k
    · simp [setEntry, h]
    · simp [setEntry, h, ih]

/-- C5: `updateScore` is idempotent: running the identical update a second
time returns the same result and leaves the daily-log table exactly as
after the first run (hence the same stored scores map and total). -/
theorem updateScore_idempotent (contract : Contract) (update : ScoreUpdate)
    (uid today : String) (table : List DailyLog) :
    updateScore contract update uid today
        (updateScore contract update uid today table).2 =
      updateScore contract update uid today table := by
  unfold updateScore
  cases hf : contract.binary_actions.find?
      (fun a => jsToLower a.name == jsToLower update.action) with
  | none => simp
  | some a =>
    simp only
    set v := (if update.completed then a.points else 0) with hv
    set s₀ := ((getTodayLog table uid today).map (·.scores)).getD [] with hs₀
    set s₁ := setEntry s₀ a.name v with hs₁
    set u : DailyLogUpdate := { scores := some s₁, total_score := some (sumScores s₁) } with hu
    have hread : ((getTodayLog (upsertDailyLog table uid today u) uid today).map
        (·.scores)).getD [] = s₁ := by
      rw [getTodayLog_upsert]
      cases getTodayLog table uid today <;> simp [applyDailyLogUpdate, newDailyLog, hu]
    rw [hread, hs₁, setEntry_setEntry, ← hs₁]
    rw [show upsertDailyLog table uid today
          { scores := some s₁, total_score := some (sumScores s₁) } =
        upsertDailyLog table uid today u from by rw [hu]]
    rw [upsert_scores_idem table uid today s₁ (sumScores s₁)]

/-- C6: a score update naming an action absent from the contract (by
exact case-insensitive comparison) changes nothing: the daily-log table
is returned as-is and the result is the zero-effect explanatory record.
(The embedded function is total, mirroring that the source path raises
no exception.) -/
theorem updateScore_unknown_action (contract : Contract) (update : ScoreUpdate)
    (uid today : String) (table : List DailyLog)
    (h : contract.binary_actions.find?
        (fun a => jsToLower a.name == jsToLower update.action) = none) :
    updateScore contract update uid today table =
      ({ newScore := 0, totalPossible := 0,
         message := "Unknown action: " ++ update.action }, table) := by
  unfold updateScore
  rw [h]

/-- Witness for C6: updating `fly` against a walk/protein contract. -/
theorem updateScore_unknown_action_witness :
    updateScore
      { goal := "fitness",
        binary_actions := [{ name := "walk", threshold := "10k steps", points := 1 },
                           { name := "protein", threshold := "hit target", points := 2 }] }
      { action := "fly", completed := true } "u1" "2024-01-01" [] =
      ({ newScore := 0, totalPossible := 0, message := "Unknown action: fly" }, []) := by
  exact updateScore_unknown_action _ _ _ _ _ (by decide)

/-- A pattern-memory row, from `src/db/queries.ts` (`interface Pattern`);
the columns read or written by the embedded functions. -/
structure Pattern where
  pattern_type : String
  content : String
  frequency : Int
deriving DecidableEq

/-- `recordPattern` from `src/db/queries.ts` for one user's pattern rows:
bump the frequency of the first row with the same type and exact content,
otherwise insert a fresh row with frequency 1. -/
def recordPattern : List Pattern → String → String → List Pattern
  | [], ptype, content => [{ pattern_type := ptype, content := content, frequency := 1 }]
  | p :: rest, ptype, content =>
      if p.pattern_type == ptype && p.content == content then
        { p with frequency := p.frequency + 1 } :: rest
      else p :: recordPattern rest ptype content

/-- The escalation record returned by `determineShameEscalation`, from
`src/flows/photoShame.ts`. -/
structure ShameEscalation where
  level : Nat
  trigger : String
  message : String
  showBaseline : Bool
  showRecent : Bool
  actionRequired : String
deriving DecidableEq

/-- `countConsecutiveFailures`: failures counted from the newest log
backwards, stopping at the first day scoring 5 or more. -/
def countConsecutiveFailures : List DailyLog → Nat
  | [] => 0
  | log :: rest =>
      if log.total_score < 5 then countConsecutiveFailures rest + 1 else 0

/-- Days in the window scoring under 5 (`failedDays`). -/
def failedDaysCount (recentLogs : List DailyLog) : Nat :=
  (recentLogs.filter (fun l => l.total_score < 5)).length

/-- The `miss_reason` patterns with frequency at least 2
(`repeatExcuses`). -/
def repeatExcusesOf (patterns : List Pattern) : List Pattern :=
  patterns.filter (fun p => p.pattern_type == "miss_reason" && p.frequency ≥ 2)

/-- `determineShameEscalation` from `src/flows/photoShame.ts`, translated
branch for branch: the level-0 hard override first, then the level-1,
level-2 and level-3 checks in the order they appear in the source. -/
def determineShameEscalation (user : User) (recentLogs : List DailyLog)
    (patterns : List Pattern) : Option ShameEscalation :=
  if user.shame_level = 0 then none
  else
    let failedDays := failedDaysCount recentLogs
    let consecutiveFailures := countConsecutiveFailures recentLogs
    let _missedLocks := (recentLogs.filter (fun l => !l.tomorrow_locked)).length
    let repeatExcuses := repeatExcusesOf patterns
    if user.shame_level ≥ 1 ∧ failedDays ≥ 1 ∧ failedDays ≤ 2 then
      some { level := 1
             trigger := "single_slip"
             message := "You slipped. Remember where you started."
             showBaseline := true
             showRecent := false
             actionRequired := "What\x27s the ONE thing you\x27ll do differently today?" }
    else if user.shame_level ≥ 2 ∧ (consecutiveFailures ≥ 2 ∨ repeatExcuses.length > 0) then
      let excuse := match repeatExcuses.head? with
        | some p => if p.content = "" then "no clear reason" else p.content
        | none => "no clear reason"
      some { level := 2
             trigger := "repeat_failure"
             message := "This is the " ++
               (if consecutiveFailures > 1 then toString consecutiveFailures ++ "th" else "2nd") ++
               " time this week. The excuse: \"" ++ excuse ++ "\". Same pattern, same result."
             showBaseline := true
             showRecent := true
             actionRequired := "What will you do TODAY to break this pattern?" }
    else if user.shame_level ≥ 3 ∧ failedDays ≥ 4 then
      some { level := 3
             trigger := "severe_pattern"
             message := "4+ days below target. Look at these photos. Nothing changed. The only person who can change this is you."
             showBaseline := true
             showRecent := true
             actionRequired := "Tell me what you\x27re going to do RIGHT NOW." }
    else none

/-- The three tier conditions of `determineShameEscalation`, shared by the
order theorems below. -/
def shameTierApplies (user : User) (recentLogs : List DailyLog)
    (patterns : List Pattern) : Nat → Bool
  | 1 => decide (user.shame_level ≥ 1) &&
      decide (failedDaysCount recentLogs ≥ 1) && decide (failedDaysCount recentLogs ≤ 2)
  | 2 => decide (user.shame_level ≥ 2) &&
      (decide (countConsecutiveFailures recentLogs ≥ 2) ||
        decide ((repeatExcusesOf patterns).length > 0))
  | 3 => decide (user.shame_level ≥ 3) && decide (failedDaysCount recentLogs ≥ 4)
  | _ => false

/-- Modelled from the spec: the escalation priority the spec describes,
which checks tier 3 first, then tier 2, then tier 1 (section 4.6), with
the shame-level-0 hard override in front; stated against the same tier
conditions.  Used only to compare the spec's stated order with the
source's. -/
def determineShameEscalationSpec (user : User) (recentLogs : List DailyLog)
    (patterns : List Pattern) : Option Nat :=
  if user.shame_level = 0 then none
  else [3, 2, 1].find? (shameTierApplies user recentLogs patterns)

/-- C2 counterexample: a level-3 user with exactly one failed day and a
repeated excuse.  Under the spec's order (tier 3 first, then tier 2)
tier 2 must fire, but the source checks tier 1 first and returns tier 1. -/
theorem shameEscalation_order_counterexample :
    (determineShameEscalation
        { name := some "Ana", shame_level := 3, loss_aversion_enabled := true,
          onboarding_complete := true, onboarding_step := "complete" }
        [{ user_id := "u1", date := "2024-01-02", scores := [], total_score := 2,
           tomorrow_locked := true, tomorrow_plan := none, miss_reason := none,
           notes := none }]
        [{ pattern_type := "miss_reason", content := "too tired", frequency := 2 }]).map
      ShameEscalation.level = some 1 ∧
    determineShameEscalationSpec
        { name := some "Ana", shame_level := 3, loss_aversion_enabled := true,
          onboarding_complete := true, onboarding_step := "complete" }
        [{ user_id := "u1", date := "2024-01-02", scores := [], total_score := 2,
           tomorrow_locked := true, tomorrow_plan := none, miss_reason := none,
           notes := none }]
        [{ pattern_type := "miss_reason", content := "too tired", frequency := 2 }] =
      some 2 := by
  constructor <;> decide

/-- C2 (amended): the escalation function returns the first tier whose
condition holds in the source's fixed priority order tier 1, then
tier 2, then tier 3 — the reverse of the order the spec states — with
`shame_level = 0` always yielding none, and none when no condition
holds. -/
theorem determineShameEscalation_order (user : User) (recentLogs : List DailyLog)
    (patterns : List Pattern) :
    (determineShameEscalation user recentLogs patterns).map ShameEscalation.level =
      if user.shame_level = 0 then none
      else [1, 2, 3].find? (shameTierApplies user recentLogs patterns) := by
  unfold determineShameEscalation
  by_cases h0 : user.shame_level = 0
  · simp [h0]
  · simp only [h0, if_false]
    by_cases h1 : user.shame_level ≥ 1 ∧ failedDaysCount recentLogs ≥ 1 ∧
        failedDaysCount recentLogs ≤ 2
    · simp [List.find?, shameTierApplies, h1.1, h1.2.1, h1.2.2]
    · by_cases h2 : user.shame_level ≥ 2 ∧ (countConsecutiveFailures recentLogs ≥ 2 ∨
          (repeatExcusesOf patterns).length > 0)
      · have hn1 : shameTierApplies user recentLogs patterns 1 = false := by
          simp only [shameTierApplies]
          rcases Decidable.not_and_iff_or_not.mp h1 with h | h
          · simp [h]
          · rcases Decidable.not_and_iff_or_not.mp h with h' | h' <;> simp [h']
        have ht2 : shameTierApplies user recentLogs patterns 2 = true := by
          simp only [shameTierApplies]
          rcases h2 with ⟨ha, hb | hb⟩ <;> simp [ha, hb]
        simp [List.find?, hn1, ht2, if_neg h1, h2]
      · have hn1 : shameTierApplies user recentLogs patterns 1 = false := by
          simp only [shameTierApplies]
          rcases Decidable.not_and_iff_or_not.mp h1 with h | h
          · simp [h]
          · rcases Decidable.not_and_iff_or_not.mp h with h' | h' <;> simp [h']
        have hn2 : shameTierApplies user recentLogs patterns 2 = false := by
          simp only [shameTierApplies]
          rcases Decidable.not_and_iff_or_not.mp h2 with h | h
          · simp [h]
          · rcases not_or.mp h with ⟨ha, hb⟩
            simp [ha, hb]
        by_cases h3 : user.shame_level ≥ 3 ∧ failedDaysCount recentLogs ≥ 4
        · have ht3 : shameTierApplies user recentLogs patterns 3 = true := by
            simp only [shameTierApplies]
            simp [h3.1, h3.2]
          simp [List.find?, hn1, hn2, ht3, if_neg h1, if_neg h2, h3]
        · have hn3 : shameTierApplies user recentLogs patterns 3 = false := by
            simp only [shameTierApplies]
            rcases Decidable.not_and_iff_or_not.mp h3 with h | h <;> simp [h]
          simp [List.find?, hn1, hn2, hn3, if_neg h1, if_neg h2, if_neg h3]

/-- Split a character list at every occurrence of one separator character
(JS `split` with a one-character separator). -/
def splitCharAux (c : Char) : List Char → List Char → List (List Char)
  | [], acc => [acc.reverse]
  | x :: xs, acc =>
      if x == c then acc.reverse :: splitCharAux c xs []
      else splitCharAux c xs (x :: acc)

/-- JS `s.split(c)` for a single-character separator. -/
def jsSplitChar (c : Char) (s : String) : List String :=
  (splitCharAux c s.data []).map String.mk

/-- The characters stripped from the front of a line by
`parseBinaryActions` (`/^[-*•\d.)\s]+/`). -/
def isBulletChar (c : Char) : Bool :=
  c == '-' || c == '*' || c == '•' || c.isDigit || c == '.' || c == ')' ||
    c.isWhitespace

/-- One line of the actions message after stripping leading
bullet/numbering punctuation and trimming. -/
def cleanLine (line : String) : String :=
  jsTrim (String.mk (line.data.dropWhile isBulletChar))

/-- A cleaned line turned into one `BinaryAction` with `points = 1`, from
`parseBinaryActions` in `src/flows/onboarding.ts`.  The threshold regex
`/^(.+?)\s+(under|...)?\s*(\d+)?/` matches exactly when the cleaned line
contains whitespace, in which case its lazy first group captures the text
before the first whitespace character; otherwise the fallback branch
names the whole line with threshold `completed`. -/
def lineToAction (cleaned : String) : BinaryAction :=
  if cleaned.data.any Char.isWhitespace then
    { name := jsToLower (String.mk (cleaned.data.takeWhile (fun c => !c.isWhitespace)))
      threshold := cleaned
      points := 1 }
  else
    { name := jsToLower cleaned, threshold := "completed", points := 1 }

/-- The per-line pass of `parseBinaryActions`: non-blank lines, cleaned,
blank results dropped, each remaining line one action. -/
def parseActionsBase (message : String) : List BinaryAction :=
  let lines := (jsSplitChar '\n' message).filter (fun l => !(jsTrim l == ""))
  ((lines.map cleanLine).filter (fun c => !(c == ""))).map lineToAction

/-- The final step of `parseBinaryActions`: with at least two actions the
first two get 2 points each. -/
def assignPoints : List BinaryAction → List BinaryAction
  | a :: b :: rest => { a with points := 2 } :: { b with points := 2 } :: rest
  | l => l

/-- `parseBinaryActions` from `src/flows/onboarding.ts`. -/
def parseBinaryActions (message : String) : List BinaryAction :=
  assignPoints (parseActionsBase message)

/-- The fixed default template `DEFAULT_BINARY_ACTIONS` from
`src/flows/onboarding.ts`. -/
def DEFAULT_BINARY_ACTIONS : List BinaryAction :=
  [{ name := "calories", threshold := "under target", points := 2 },
   { name := "protein", threshold := "hit target", points := 2 },
   { name := "walk", threshold := "10k steps", points := 1 },
   { name := "strength", threshold := "completed", points := 1 },
   { name := "creatine", threshold := "taken", points := 1 },
   { name := "fasting", threshold := "in window", points := 1 },
   { name := "weigh_in", threshold := "done", points := 1 },
   { name := "photo", threshold := "taken", points := 1 }]

/-- The action list stored by `handleActionsInput`: the parsed actions,
or the default template when parsing yields none. -/
def actionsForContract (message : String) : List BinaryAction :=
  let actions := parseBinaryActions message
  if actions.length > 0 then actions else DEFAULT_BINARY_ACTIONS

/-- Every action produced by the per-line pass starts with 1 point. -/
theorem lineToAction_points (cleaned : String) : (lineToAction cleaned).points = 1 := by
  unfold lineToAction
  split <;> rfl

/-- Every action of the per-line pass has 1 point. -/
theorem parseActionsBase_points (msg : String) :
    ∀ a ∈ parseActionsBase msg, a.points = 1 := by
  intro a ha
  unfold parseActionsBase at ha
  rcases List.mem_map.mp ha with ⟨c, _, rfl⟩
  exact lineToAction_points c

/-- The points of the `i`-th element after the first-two-get-2 step. -/
theorem assignPoints_getD (l : List BinaryAction) (hl : ∀ a ∈ l, a.points = 1)
    (i : Nat) (hi : i < (assignPoints l).length) :
    ((assignPoints l).getD i { name := "", threshold := "", points := 1 }).points =
      if 2 ≤ (assignPoints l).length ∧ i < 2 then 2 else 1 := by
  match l with
  | [] => simp [assignPoints] at hi
  | [a] =>
    have hi0 : i = 0 := by
      simpa [assignPoints] using Nat.lt_one_iff.mp (by simpa [assignPoints] using hi)
    subst hi0
    simpa [assignPoints] using hl a (by simp)
  | a :: b :: rest =>
    match i with
    | 0 => simp [assignPoints]
    | 1 => simp [assignPoints]
    | Nat.succ (Nat.succ k) =>
      have hk : k < rest.length := by
        simpa [assignPoints, Nat.succ_lt_succ_iff] using hi
      have hmem : rest.getD k { name := "", threshold := "", points := 1 } ∈ rest := by
        rw [List.getD_eq_getElem _ _ hk]
        exact List.getElem_mem hk
      have h1 : (rest.getD k { name := "", threshold := "", points := 1 }).points = 1 :=
        hl _ (List.mem_cons_of_mem a (List.mem_cons_of_mem b hmem))
      simp only [assignPoints, List.getD_cons_succ]
      rw [h1, if_neg (by omega)]

/-- C3: every parsed binary action carries 1 point except that when at
least two actions parse the first two carry 2; an empty parse falls back
to the fixed 8-action default template totalling 10 points (and a
non-empty parse is used as-is); and the input
`"calories\nprotein\nwalk"` parses to calories 2 pts, protein 2 pts,
walk 1 pt. -/
theorem parseBinaryActions_spec (msg : String) :
    (∀ (i : Nat), i < (parseBinaryActions msg).length →
      ((parseBinaryActions msg).getD i { name := "", threshold := "", points := 1 }).points =
        if 2 ≤ (parseBinaryActions msg).length ∧ i < 2 then 2 else 1) ∧
    (parseBinaryActions msg = [] → actionsForContract msg = DEFAULT_BINARY_ACTIONS) ∧
    (parseBinaryActions msg ≠ [] → actionsForContract msg = parseBinaryActions msg) ∧
    DEFAULT_BINARY_ACTIONS.length = 8 ∧
    (DEFAULT_BINARY_ACTIONS.map (·.points)).sum = 10 ∧
    parseBinaryActions "calories\nprotein\nwalk" =
      [{ name := "calories", threshold := "completed", points := 2 },
       { name := "protein", threshold := "completed", points := 2 },
       { name := "walk", threshold := "completed", points := 1 }] := by
  refine ⟨?_, ?_, ?_, by decide, by decide, by decide⟩
  · intro i hi
    exact assignPoints_getD (parseActionsBase msg) (parseActionsBase_points msg) i hi
  · intro h
    simp only [actionsForContract, h]
    rfl
  · intro h
    have hl : (parseBinaryActions msg).length > 0 := List.length_pos.mpr h
    simp only [actionsForContract]
    rw [if_pos hl]

/-- Witness for C3: the third action of a three-line message has 1 point. -/
theorem parseBinaryActions_spec_witness :
    ((parseBinaryActions "calories\nprotein\nwalk").getD 2
      { name := "", threshold := "", points := 1 }).points = 1 := by
  have h := (parseBinaryActions_spec "calories\nprotein\nwalk").1 2 (by decide)
  rw [h]
  decide

/-- The fixed greeting list of `isGreeting` in `src/flows/onboarding.ts`. -/
def GREETINGS : List String :=
  ["hi", "hello", "hey", "yo", "sup", "hola", "start", "begin"]

/-- `isGreeting`: a member of the fixed greeting list, or any string of
fewer than 4 characters. -/
def isGreeting (message : String) : Bool :=
  GREETINGS.contains message || message.length < 4

/-- JS `charAt(0).toUpperCase() + slice(1).toLowerCase()`. -/
def capitalizeFirst (s : String) : String :=
  match s.data with
  | [] => ""
  | c :: rest => String.mk (c.toUpper :: rest.map Char.toLower)

/-- The re-prompt returned when the name input still looks like a
greeting. -/
def nameRepromptMessage : String :=
  "What\x27s your name? Just your first name is fine."

/-- `handleNameInput` from `src/flows/onboarding.ts`: re-prompt without
touching the user when the trimmed, lowercased input is a greeting;
otherwise store the capitalized first whitespace-token as the name and
advance to `awaiting_goal`.  The accepted-name reply references
`ONBOARDING_PROMPTS.name_received`, which `src/prompts/system.ts` does
not define, so the reply builder is a parameter. -/
def handleNameInput (nameReceived : String → String) (user : User)
    (message : String) : String × User :=
  let name := jsTrim message
  if isGreeting (jsToLower name) then (nameRepromptMessage, user)
  else
    let firstName := (jsSplitChar ' ' name).headD ""
    let capitalizedName := capitalizeFirst firstName
    (nameReceived capitalizedName,
     { user with name := some capitalizedName, onboarding_step := "awaiting_goal" })

/-- Lowercasing does not change the character count. -/
theorem jsToLower_length (s : String) : (jsToLower s).length = s.length := by
  show (s.data.map Char.toLower).length = s.data.length
  simp

/-- C10: at `awaiting_name`, any message whose trimmed text has fewer
than 4 characters (or is a fixed greeting word) is rejected: the
re-prompt is returned and the user row (name, onboarding step) is
untouched; conversely a non-greeting input is at least 4 characters
long, so no shorter name input is ever accepted. -/
theorem handleNameInput_greeting_guard (nameReceived : String → String)
    (user : User) (message : String) :
    (isGreeting (jsToLower (jsTrim message)) = true →
      handleNameInput nameReceived user message = (nameRepromptMessage, user)) ∧
    ((jsTrim message).length < 4 → isGreeting (jsToLower (jsTrim message)) = true) ∧
    (GREETINGS.contains (jsToLower (jsTrim message)) = true →
      isGreeting (jsToLower (jsTrim message)) = true) ∧
    (isGreeting (jsToLower (jsTrim message)) = false →
      4 ≤ (jsTrim message).length ∧
      (handleNameInput nameReceived user message).2.onboarding_step = "awaiting_goal") := by
  refine ⟨?_, ?_, ?_, ?_⟩
  · intro h
    simp [handleNameInput, h]
  · intro h
    simp [isGreeting, jsToLower_length, h]
  · intro h
    simp only [isGreeting, Bool.or_eq_true]
    exact Or.inl h
  · intro h
    have hlen : ¬ (jsToLower (jsTrim message)).length < 4 := by
      intro hc
      simp [isGreeting, hc] at h
    constructor
    · rw [jsToLower_length] at hlen
      omega
    · simp [handleNameInput, h]

/-- Witness for C10: "hi" is re-prompted; "Jonathan" is accepted. -/
theorem handleNameInput_greeting_guard_witness :
    handleNameInput (fun n => n)
        { name := none, shame_level := 1, loss_aversion_enabled := true,
          onboarding_complete := false, onboarding_step := "awaiting_name" }
        " hi " =
      (nameRepromptMessage,
        { name := none, shame_level := 1, loss_aversion_enabled := true,
          onboarding_complete := false, onboarding_step := "awaiting_name" }) ∧
    (handleNameInput (fun n => n)
        { name := none, shame_level := 1, loss_aversion_enabled := true,
          onboarding_complete := false, onboarding_step := "awaiting_name" }
        "jonathan smith").2.onboarding_step = "awaiting_goal" := by
  constructor
  · exact (handleNameInput_greeting_guard (fun n => n) _ " hi ").1 (by decide)
  · exact ((handleNameInput_greeting_guard (fun n => n) _ "jonathan smith").2.2.2
      (by decide)).2

/-- JS `String.prototype.includes`, by scanning for a prefix match. -/
def strIncludesAux (pat : List Char) : List Char → Bool
  | [] => pat.isPrefixOf []
  | c :: rest => pat.isPrefixOf (c :: rest) || strIncludesAux pat rest

/-- `s.includes(pat)`. -/
def strIncludes (s pat : String) : Bool :=
  strIncludesAux pat.data s.data

/-- JS `String.prototype.replace` with a one-character pattern: replace
only the first occurrence. -/
def replaceFirstChar (c r : Char) : List Char → List Char
  | [] => []
  | x :: xs => if x == c then r :: xs else x :: replaceFirstChar c r xs

/-- `s.replace('_', ' ')` and friends. -/
def replaceFirst (s : String) (c r : Char) : String :=
  String.mk (replaceFirstChar c r s.data)

/-- Split at every character satisfying the predicate (used for the JS
`split(/[,\s]+/)`: separator runs there produce empty tokens here, which
the caller's `length > 2` filter removes either way, so the filtered
results agree). -/
def splitPredAux (p : Char → Bool) : List Char → List Char → List (List Char)
  | [], acc => [acc.reverse]
  | x :: xs, acc =>
      if p x then acc.reverse :: splitPredAux p xs []
      else splitPredAux p xs (x :: acc)

/-- String-level predicate split. -/
def jsSplitPred (p : Char → Bool) (s : String) : List String :=
  (splitPredAux p s.data []).map String.mk

/-- The sub-steps of the nightly-lock session, from
`src/flows/nightlyLock.ts`. -/
inductive LockStep
  | start
  | scoring
  | miss_reason
  | planning
  | confirm
deriving DecidableEq

/-- The in-memory nightly-lock session state (`NightlyLockState`), from
`src/flows/nightlyLock.ts`. -/
structure NightlyLockState where
  step : LockStep
  todayScores : Option (List (String × Int)) := none
  missedItems : Option (List String) := none
  missReason : Option String := none
  tomorrowPlan : Option TomorrowPlan := none
deriving DecidableEq

/-- The state one inbound message can touch: the user's nightly-lock
session, the daily-log rows and the pattern rows. -/
structure FlowEnv where
  session : Option NightlyLockState
  table : List DailyLog
  patterns : List Pattern
deriving DecidableEq

/-- `FLOW_PROMPTS.nightly_lock_plan` from `src/prompts/system.ts`. -/
def nightlyLockPlanPrompt : String :=
  "Now lock tomorrow:\n\n1. Eating window?\n2. First meal time and what?\n3. Walk: when?\n4. Strength: yes/no?\n5. One danger moment you anticipate?\n\nBe specific. \"Morning\" is not a time."

/-- `FLOW_PROMPTS.nightly_lock_reason` from `src/prompts/system.ts`. -/
def nightlyLockReasonPrompt (missedItems : List String) : String :=
  "You missed: " ++ String.intercalate ", " missedItems ++
    "\n\nOne sentence: What happened?"

/-- `startNightlyLock`: emit the checklist and move the session to
`scoring` (a fresh session object, dropping any earlier fields). -/
def startNightlyLock (contract : Contract) : String × NightlyLockState :=
  ("Time to lock tomorrow.\n\nFirst, score today. Which of these did you complete?\n\n" ++
    String.intercalate "\n" (contract.binary_actions.map (fun a => "- " ++ a.name)) ++
    "\n\nReply with what you hit (e.g., \"calories, protein, walk\") or \"all\" / \"none\".",
   { step := .scoring })

/-- The direct substring match of the scoring step: the message contains
the lowercased action name, or the name with its first underscore as a
space. -/
def scoringDirectMatch (lower : String) (a : BinaryAction) : Bool :=
  strIncludes lower (jsToLower a.name) ||
    strIncludes lower (replaceFirst (jsToLower a.name) '_' ' ')

/-- The word-overlap fallback of the scoring step: some message word of
more than 2 characters occurs in the action name, or contains the name's
first 4 characters. -/
def scoringFallbackMatch (words : List String) (a : BinaryAction) : Bool :=
  words.any (fun w => strIncludes (jsToLower a.name) w ||
    strIncludes w (String.mk ((jsToLower a.name).data.take 4)))

/-- The per-action value written by the scoring loop. -/
def scoreVal (completedItems : List String) (a : BinaryAction) : Int :=
  if completedItems.contains a.name then a.points else 0

/-- One iteration of the scoring loop (`scores[name] = ...` and the
running total). -/
def scoreStep (completedItems : List String) (acc : List (String × Int) × Int)
    (a : BinaryAction) : List (String × Int) × Int :=
  if completedItems.contains a.name then
    (setEntry acc.1 a.name a.points, acc.2 + a.points)
  else (setEntry acc.1 a.name 0, acc.2)

/-- The scoring loop of `handleScoring`. -/
def scoreActions (actions : List BinaryAction) (completedItems : List String) :
    List (String × Int) × Int :=
  actions.foldl (scoreStep completedItems) ([], 0)

/-- `handleScoring` from `src/flows/nightlyLock.ts`: `"all"` completes
everything, `"none"` misses everything, otherwise the direct substring
pass and — only when it matched nothing — the word-overlap fallback pass
(which appends to the already-full missed list, as in the source);
persist the scores and either move to `miss_reason` (some miss) or
`planning` (none). -/
def handleScoring (contract : Contract) (message : String)
    (state : NightlyLockState) (uid today : String) (table : List DailyLog) :
    String × NightlyLockState × List DailyLog :=
  let lower := jsToLower message
  let actions := contract.binary_actions
  let (completedItems, missedItems) :=
    if lower == "all" then (actions.map (·.name), ([] : List String))
    else if lower == "none" then (([] : List String), actions.map (·.name))
    else
      let c1 := (actions.filter (scoringDirectMatch lower)).map (·.name)
      let m1 := (actions.filter (fun a => !scoringDirectMatch lower a)).map (·.name)
      if c1.length == 0 then
        let words := (jsSplitPred (fun c => c == ',' || c.isWhitespace) lower).filter
          (fun w => w.length > 2)
        ((actions.filter (scoringFallbackMatch words)).map (·.name),
         m1 ++ (actions.filter (fun a => !scoringFallbackMatch words a)).map (·.name))
      else (c1, m1)
  let scored := scoreActions actions completedItems
  let table := upsertDailyLog table uid today
    { scores := some scored.1, total_score := some scored.2 }
  let state := { state with todayScores := some scored.1, missedItems := some missedItems }
  if missedItems.length > 0 then
    (nightlyLockReasonPrompt missedItems, { state with step := .miss_reason }, table)
  else
    ("Perfect day. " ++ toString scored.2 ++ "/10.\n\n" ++ nightlyLockPlanPrompt,
     { state with step := .planning }, table)

/-- Greedy bounded take, for the `\d{1,2}`-style pieces of the time
regex. -/
def takeUpTo : Nat → (Char → Bool) → List Char → List Char × List Char
  | 0, _, cs => ([], cs)
  | _ + 1, _, [] => ([], [])
  | n + 1, p, c :: cs =>
      if p c then
        let r := takeUpTo n p cs
        (c :: r.1, r.2)
      else ([], c :: cs)

/-- The match of `/(\d{1,2}[:\s]?\d{0,2}\s*(?:am|pm)?)/i` at a position
starting with a digit; every piece after the leading digits is optional,
so the greedy pass needs no backtracking. -/
def matchTimeAt (cs : List Char) : List Char :=
  let d1 := takeUpTo 2 Char.isDigit cs
  let sep := takeUpTo 1 (fun c => c == ':' || c.isWhitespace) d1.2
  let d2 := takeUpTo 2 Char.isDigit sep.2
  let ws := d2.2.takeWhile Char.isWhitespace
  let rest := d2.2.dropWhile Char.isWhitespace
  let ampm := match rest with
    | a :: m :: _ =>
        if (a.toLower == 'a' || a.toLower == 'p') && m.toLower == 'm' then [a, m]
        else []
    | [a] =>
        let _ := a
        []
    | [] => []
  d1.1 ++ sep.1 ++ d2.1 ++ ws ++ ampm

/-- The first match of the time regex of `handleMissReason`, scanning
from the left; a match starts at the first digit. -/
def findTimeMention : List Char → Option String
  | [] => none
  | c :: cs =>
      if c.isDigit then some (String.mk (matchTimeAt (c :: cs)))
      else findTimeMention cs

/-- `message.match(/(\d{1,2}[:\s]?\d{0,2}\s*(?:am|pm)?)/i)`. -/
def extractTimeMention (s : String) : Option String :=
  findTimeMention s.data

/-- `handleMissReason`: record the verbatim reason (and a `failure_time`
pattern when a time shows in the text) and always advance to
`planning`. -/
def handleMissReason (message : String) (state : NightlyLockState)
    (patterns : List Pattern) : String × NightlyLockState × List Pattern :=
  let trimmed := jsTrim message
  let patterns := recordPattern patterns "miss_reason" trimmed
  let patterns := match extractTimeMention message with
    | some t => recordPattern patterns "failure_time" t
    | none => patterns
  ("Noted: \"" ++ trimmed ++ "\"\n\n" ++ nightlyLockPlanPrompt,
   { state with missReason := some trimmed, step := .planning }, patterns)

/-- `handlePlanning`: parse the plan, echo it, move to `confirm`.  The
regex-cascade `parseTomorrowPlan` is a parameter: no claim here depends
on the parsed plan's field values. -/
def handlePlanning (parsePlan : String → TomorrowPlan) (message : String)
    (state : NightlyLockState) : String × NightlyLockState :=
  let plan := parsePlan message
  ("Tomorrow\x27s plan:\n\n📍 Eating: " ++ plan.eating_window ++
    "\n🍽️ First meal: " ++ plan.first_meal ++ "\n🚶 Walk: " ++ plan.walk_time ++
    "\n💪 Strength: " ++ (if plan.strength then "YES" else "NO") ++
    "\n⚠️ Danger: " ++ plan.danger_moment ++ "\n\nReply \"LOCKED\" to confirm.",
   { state with tomorrowPlan := some plan, step := .confirm })

/-- `handleConfirm`: an exact case-insensitive `LOCKED` persists the plan
(`miss_reason` falls back to null for the empty string, as `|| null`
does) and clears the session; anything else returns to `planning`. -/
def handleConfirm (message : String) (state : NightlyLockState)
    (uid today : String) (table : List DailyLog) :
    String × Option NightlyLockState × List DailyLog :=
  if jsToUpper (jsTrim message) == "LOCKED" then
    let table := upsertDailyLog table uid today
      { tomorrow_locked := some true
        tomorrow_plan := some state.tomorrowPlan
        miss_reason := some (match state.missReason with
          | some s => if s == "" then none else some s
          | none => none) }
    let score := match state.todayScores with
      | some s => sumScores s
      | none => 0
    ("Locked. ✓\n\nToday: " ++ toString score ++
      "/10\nTomorrow is already decided.\n\nSleep well. I\x27ll remind you in the morning.",
     none, table)
  else
    ("What do you want to change? Give me the full plan again.",
     some { state with step := .planning }, table)

/-- `handleNightlyLock`: dispatch on the in-progress sub-step (a missing
session starts at `start`). -/
def handleNightlyLock (parsePlan : String → TomorrowPlan) (contract : Contract)
    (uid today : String) (message : String) (env : FlowEnv) : String × FlowEnv :=
  let state := env.session.getD { step := .start }
  match state.step with
  | .start =>
      let r := startNightlyLock contract
      (r.1, { env with session := some r.2 })
  | .scoring =>
      let r := handleScoring contract message state uid today env.table
      (r.1, { env with session := some r.2.1, table := r.2.2 })
  | .miss_reason =>
      let r := handleMissReason message state env.patterns
      (r.1, { env with session := some r.2.1, patterns := r.2.2 })
  | .planning =>
      let r := handlePlanning parsePlan message state
      (r.1, { env with session := some r.2 })
  | .confirm =>
      let r := handleConfirm message state uid today env.table
      (r.1, { env with session := r.2.1, table := r.2.2 })

/-- The fixed trigger-phrase list of `detectBadDayRequest` in
`src/flows/badDay.ts`. -/
def badDayTriggers : List String :=
  ["bad day", "hard day", "rough day", "terrible day", "can\x27t today",
   "struggling", "need a break", "downshift", "not feeling it", "overwhelmed",
   "exhausted", "burnt out", "burnout"]

/-- `detectBadDayRequest`: substring match of any trigger against the
lowercased message. -/
def detectBadDayRequest (message : String) : Bool :=
  badDayTriggers.any (fun t => strIncludes (jsToLower message) t)

/-- The intent labels of the LLM classifier (`src/services/llm.ts`). -/
inductive Intent
  | LOG_SCORE
  | BAD_DAY
  | QUESTION
  | LOCK_TOMORROW
  | CHECK_STATUS
  | GENERAL
  | SKIP
  | PHOTO
deriving DecidableEq

/-- The webhook `handleMessage` routing (`src/routes/webhook.ts`)
projected onto the nightly-lock session store, for an onboarded user
with an active contract and no media attachment.  Branch order is the
source's; branches whose handlers never touch `nightlyLockState`
(scorecard snapshot, weekly report, token status, bad-day protocol,
rationalization callout, applied score update) pass the session through
unchanged.  The results of the `detectRationalization` regexes, of
`parseScoreUpdate` and of the LLM intent classification are parameters:
they sit after every branch the claims exercise. -/
def handleMessageNightlySession (parsePlan : String → TomorrowPlan)
    (contract : Contract) (uid today : String) (message : String) (env : FlowEnv)
    (scoreUpdate : Option ScoreUpdate) (intent : Intent) (rationalizes : Bool) :
    Option NightlyLockState :=
  let lower := jsTrim (jsToLower message)
  if env.session.isSome then
    (handleNightlyLock parsePlan contract uid today message env).2.session
  else if lower == "lock" || lower == "nightly" || strIncludes lower "lock tomorrow" then
    (handleNightlyLock parsePlan contract uid today message env).2.session
  else if lower == "status" || lower == "score" || strIncludes lower "how am i" then
    env.session
  else if lower == "week" || lower == "weekly" || strIncludes lower "weekly report" then
    env.session
  else if lower == "tokens" || strIncludes lower "token" then
    env.session
  else if detectBadDayRequest message then
    env.session
  else if lower == "reset" then
    none
  else if rationalizes then
    env.session
  else if scoreUpdate.isSome then
    env.session
  else
    match intent with
    | .LOCK_TOMORROW =>
        (handleNightlyLock parsePlan contract uid today message env).2.session
    | _ => env.session

/-- Reading any key from a JS-object update (`scores[k] = v`). -/
theorem lookup_setEntry (s : List (String × Int)) (k : String) (v : Int) (n : String) :
    lookupEntry (setEntry s k v) n = if k == n then some v else lookupEntry s n := by
  induction s with
  | nil =>
    by_cases h : k == n <;> simp [setEntry, lookupEntry, List.find?, h]
  | cons p rest ih =>
    obtain ⟨k', v'⟩ := p
    by_cases h1 : (k' == k) = true
    · have hk : k' = k := by simpa using h1
      subst hk
      by_cases h2 : (k' == n) = true
      · simp [setEntry, lookupEntry, List.find?, h2]
      · simp [setEntry, lookupEntry, List.find?, h1, h2]
    · by_cases h2 : (k' == n) = true
      · have hkn : k' = n := by simpa using h2
        have : ¬ (k == n) = true := by
          intro hc
          exact h1 (by simp_all)
        simp [setEntry, lookupEntry, List.find?, h1, h2, this]
      · simp only [setEntry, h1, if_false, lookupEntry, List.find?, h2]
        simpa [lookupEntry] using ih

/-- Both branches of the scoring loop write `scoreVal` at the action's
name. -/
theorem scoreStep_fst (completed : List String) (acc : List (String × Int) × Int)
    (a : BinaryAction) :
    (scoreStep completed acc a).1 = setEntry acc.1 a.name (scoreVal completed a) := by
  unfold scoreStep scoreVal
  by_cases h : a.name ∈ completed <;> simp [h]

/-- Both branches of the scoring loop add `scoreVal` to the total. -/
theorem scoreStep_snd (completed : List String) (acc : List (String × Int) × Int)
    (a : BinaryAction) :
    (scoreStep completed acc a).2 = acc.2 + scoreVal completed a := by
  unfold scoreStep scoreVal
  by_cases h : a.name ∈ completed <;> simp [h]

/-- The running total of the scoring loop. -/
theorem scoreActions_foldl_total (completed : List String) (actions : List BinaryAction) :
    ∀ acc : List (String × Int) × Int,
      (actions.foldl (scoreStep completed) acc).2 =
        acc.2 + (actions.map (scoreVal completed)).sum := by
  induction actions with
  | nil => intro acc; simp
  | cons a as ih =>
    intro acc
    rw [List.foldl_cons, ih, scoreStep_snd]
    simp [add_assoc]

/-- The total persisted by the scoring step is the sum of the per-action
values. -/
theorem scoreActions_total (actions : List BinaryAction) (completed : List String) :
    (scoreActions actions completed).2 = (actions.map (scoreVal completed)).sum := by
  simpa using scoreActions_foldl_total completed actions ([], 0)

/-- The scores object written by the scoring loop, read at any key: the
last action with that name decides the value. -/
theorem scoreActions_foldl_lookup (completed : List String) (actions : List BinaryAction) :
    ∀ (acc : List (String × Int) × Int) (n : String),
      lookupEntry (actions.foldl (scoreStep completed) acc).1 n =
        match actions.reverse.find? (fun a => a.name == n) with
        | some a => some (scoreVal completed a)
        | none => lookupEntry acc.1 n := by
  induction actions with
  | nil => intro acc n; simp
  | cons a as ih =>
    intro acc n
    rw [List.foldl_cons, ih, List.reverse_cons, find?_append]
    cases hf : as.reverse.find? (fun x => x.name == n) with
    | some b => rfl
    | none =>
      simp only [List.find?]
      by_cases h : (a.name == n) = true
      · have hn : a.name = n := by simpa using h
        simp [h, scoreStep_fst, lookup_setEntry, hn]
      · simp [h, scoreStep_fst, lookup_setEntry]

/-- The reversed action list still finds every present name. -/
theorem find?_name_reverse_of_mem (actions : List BinaryAction) (a : BinaryAction)
    (ha : a ∈ actions) :
    ∃ b, actions.reverse.find? (fun x => x.name == a.name) = some b ∧
      b ∈ actions ∧ b.name = a.name := by
  cases hf : actions.reverse.find? (fun x => x.name == a.name) with
  | none =>
    have := List.find?_eq_none.mp hf a (List.mem_reverse.mpr ha)
    simp at this
  | some b =>
    refine ⟨b, rfl, ?_, ?_⟩
    · exact List.mem_reverse.mp (List.mem_of_find?_eq_some hf)
    · simpa using List.find?_some hf

/-- The row read back after the scoring step's upsert. -/
theorem getTodayLog_upsert_scores (table : List DailyLog) (uid today : String)
    (s : List (String × Int)) (t : Int) :
    ∃ row, getTodayLog (upsertDailyLog table uid today
        { scores := some s, total_score := some t }) uid today = some row ∧
      row.scores = s ∧ row.total_score = t := by
  rw [getTodayLog_upsert]
  cases getTodayLog table uid today <;> exact ⟨_, rfl, rfl, rfl⟩

/-- A map to the zero constant sums to zero. -/
theorem sum_map_zero (l : List BinaryAction) : (l.map (fun _ => (0 : Int))).sum = 0 := by
  induction l with
  | nil => rfl
  | cons a as ih => simp [ih]

/-- C7: in the nightly-lock scoring step, `"all"` marks every action of
the contract complete (every action's stored score is its full points),
persists `total_score` equal to the sum of all the contract's points and
moves the session straight to `planning`; `"none"` marks every action
missed (every stored score is 0), persists `total_score = 0` and moves
the session to `miss_reason`.  The `"all"` half assumes the contract's
action names are distinct, the `"none"` half that the contract has at
least one action. -/
theorem handleScoring_all_none (contract : Contract) (uid today : String)
    (table : List DailyLog) (st : NightlyLockState) (mA mN : String) :
    (jsToLower mA = "all" → (contract.binary_actions.map (·.name)).Nodup →
      (handleScoring contract mA st uid today table).2.1.step = LockStep.planning ∧
      ∃ row, getTodayLog (handleScoring contract mA st uid today table).2.2
          uid today = some row ∧
        row.total_score = (contract.binary_actions.map (·.points)).sum ∧
        ∀ a ∈ contract.binary_actions, lookupEntry row.scores a.name = some a.points) ∧
    (jsToLower mN = "none" → contract.binary_actions ≠ [] →
      (handleScoring contract mN st uid today table).2.1.step = LockStep.miss_reason ∧
      ∃ row, getTodayLog (handleScoring contract mN st uid today table).2.2
          uid today = some row ∧
        row.total_score = 0 ∧
        ∀ a ∈ contract.binary_actions, lookupEntry row.scores a.name = some 0) := by
  constructor
  · intro hA hnd
    have hall : handleScoring contract mA st uid today table =
        ("Perfect day. " ++ toString (scoreActions contract.binary_actions
            (contract.binary_actions.map (·.name))).2 ++ "/10.\n\n" ++ nightlyLockPlanPrompt,
         { st with
            todayScores := some (scoreActions contract.binary_actions
              (contract.binary_actions.map (·.name))).1
            missedItems := some []
            step := .planning },
         upsertDailyLog table uid today
           { scores := some (scoreActions contract.binary_actions
               (contract.binary_actions.map (·.name))).1
             total_score := some (scoreActions contract.binary_actions
               (contract.binary_actions.map (·.name))).2 }) := by
      simp [handleScoring, hA]
    rw [hall]
    refine ⟨rfl, ?_⟩
    obtain ⟨row, hrow, hs, ht⟩ := getTodayLog_upsert_scores table uid today
      (scoreActions contract.binary_actions (contract.binary_actions.map (·.name))).1
      (scoreActions contract.binary_actions (contract.binary_actions.map (·.name))).2
    refine ⟨row, hrow, ?_, ?_⟩
    · rw [ht, scoreActions_total]
      apply congrArg
      apply List.map_congr_left
      intro a ha
      have hmem : a.name ∈ contract.binary_actions.map (·.name) :=
        List.mem_map_of_mem (·.name) ha
      simp [scoreVal, hmem]
    · intro a ha
      rw [hs]
      unfold scoreActions
      rw [scoreActions_foldl_lookup]
      obtain ⟨b, hb, hbmem, hbname⟩ :=
        find?_name_reverse_of_mem contract.binary_actions a ha
      rw [hb]
      have hba : b = a :=
        List.inj_on_of_nodup_map hnd hbmem ha hbname
      subst hba
      have hmem : b.name ∈ contract.binary_actions.map (·.name) :=
        List.mem_map_of_mem (·.name) hbmem
      simp [scoreVal, hmem]
  · intro hN hne
    have hlen : 0 < (contract.binary_actions.map (·.name)).length := by
      rw [List.length_map]
      exact List.length_pos.mpr hne
    have hnone : handleScoring contract mN st uid today table =
        (nightlyLockReasonPrompt (contract.binary_actions.map (·.name)),
         { st with
            todayScores := some (scoreActions contract.binary_actions []).1
            missedItems := some (contract.binary_actions.map (·.name))
            step := .miss_reason },
         upsertDailyLog table uid today
           { scores := some (scoreActions contract.binary_actions []).1
             total_score := some (scoreActions contract.binary_actions []).2 }) := by
      simp [handleScoring, hN, hlen, hne]
    rw [hnone]
    refine ⟨rfl, ?_⟩
    obtain ⟨row, hrow, hs, ht⟩ := getTodayLog_upsert_scores table uid today
      (scoreActions contract.binary_actions []).1
      (scoreActions contract.binary_actions []).2
    refine ⟨row, hrow, ?_, ?_⟩
    · rw [ht, scoreActions_total]
      rw [show contract.binary_actions.map (scoreVal []) =
          contract.binary_actions.map (fun _ => (0 : Int)) from
        List.map_congr_left (fun a _ => by simp [scoreVal])]
      exact sum_map_zero contract.binary_actions
    · intro a ha
      rw [hs]
      unfold scoreActions
      rw [scoreActions_foldl_lookup]
      obtain ⟨b, hb, hbmem, hbname⟩ :=
        find?_name_reverse_of_mem contract.binary_actions a ha
      rw [hb]
      simp [scoreVal]

/-- Witness for C7: a concrete 4-action contract scored with `"all"` and
with `"none"`. -/
theorem handleScoring_all_none_witness :
    (handleScoring
        { goal := "fat loss", binary_actions :=
            [{ name := "calories", threshold := "under 2000", points := 2 },
             { name := "protein", threshold := "150g", points := 2 },
             { name := "walk", threshold := "10k", points := 1 },
             { name := "strength", threshold := "done", points := 1 }] }
        "all" { step := .scoring } "u1" "2024-01-01" []).2.1.step = LockStep.planning ∧
    (handleScoring
        { goal := "fat loss", binary_actions :=
            [{ name := "calories", threshold := "under 2000", points := 2 },
             { name := "protein", threshold := "150g", points := 2 },
             { name := "walk", threshold := "10k", points := 1 },
             { name := "strength", threshold := "done", points := 1 }] }
        "none" { step := .scoring } "u1" "2024-01-01" []).2.1.step =
      LockStep.miss_reason := by
  constructor
  · exact ((handleScoring_all_none
      { goal := "fat loss", binary_actions :=
          [{ name := "calories", threshold := "under 2000", points := 2 },
           { name := "protein", threshold := "150g", points := 2 },
           { name := "walk", threshold := "10k", points := 1 },
           { name := "strength", threshold := "done", points := 1 }] }
      "u1" "2024-01-01" [] { step := .scoring } "all" "none").1
      (by decide) (by decide)).1
  · exact ((handleScoring_all_none
      { goal := "fat loss", binary_actions :=
          [{ name := "calories", threshold := "under 2000", points := 2 },
           { name := "protein", threshold := "150g", points := 2 },
           { name := "walk", threshold := "10k", points := 1 },
           { name := "strength", threshold := "done", points := 1 }] }
      "u1" "2024-01-01" [] { step := .scoring } "all" "none").2
      (by decide) (by decide)).1

/-- Whatever the sub-step, the nightly-lock flow handling the message
`"reset"` always leaves a session in progress ("reset" is not the LOCKED
confirmation, and every other step re-stores a session). -/
theorem handleNightlyLock_reset_keeps_session (parsePlan : String → TomorrowPlan)
    (contract : Contract) (uid today : String) (env : FlowEnv) (s : NightlyLockState)
    (h : env.session = some s) :
    ((handleNightlyLock parsePlan contract uid today "reset" env).2.session).isSome =
      true := by
  obtain ⟨step, ts, mi, mr, tp⟩ := s
  unfold handleNightlyLock
  rw [h]
  cases step <;> rfl

/-- C8 counterexample: with a nightly-lock session in progress (scoring
step, default contract), the router hands `"reset"` to the nightly-lock
flow — the in-progress-session branch precedes the reset command — and a
session is still in progress afterwards, so the claim that `"reset"`
always clears the session is false. -/
theorem reset_during_session_counterexample :
    (handleMessageNightlySession
        (fun _ => { eating_window := "12pm-8pm", first_meal := "12pm",
                    walk_time := "morning", strength := false,
                    danger_moment := "evening" })
        { goal := "fitness", binary_actions := DEFAULT_BINARY_ACTIONS }
        "u1" "2024-01-01" "reset"
        { session := some { step := .scoring }, table := [], patterns := [] }
        none Intent.GENERAL false).isSome = true := by
  decide

/-- C8 (amended): after the router handles `"reset"`, the user has no
in-progress nightly-lock session exactly when they had none before: with
no session the reset branch runs (and there is still no session); with a
session in progress the message is consumed by the nightly-lock flow,
which keeps a session, so `reset` cannot clear an in-progress session. -/
theorem handleMessage_reset_session (parsePlan : String → TomorrowPlan)
    (contract : Contract) (uid today : String) (env : FlowEnv)
    (scoreUpdate : Option ScoreUpdate) (intent : Intent) (rationalizes : Bool) :
    (handleMessageNightlySession parsePlan contract uid today "reset" env
        scoreUpdate intent rationalizes).isSome = env.session.isSome := by
  obtain ⟨sess, table, ps⟩ := env
  cases sess with
  | none => rfl
  | some s =>
    have h := handleNightlyLock_reset_keeps_session parsePlan contract uid today
      ⟨some s, table, ps⟩ s rfl
    simpa [handleMessageNightlySession] using h

/-- At most one `daily_logs` row per (user, date), as the schema's UNIQUE
constraint demands. -/
def uniqueKey (table : List DailyLog) : Prop :=
  table.Pairwise (fun a b => ¬ (a.user_id = b.user_id ∧ a.date = b.date))

/-- The branches of the upsert's update map never touch the key
columns. -/
theorem upsertRowMap_key (uid date : String) (u : DailyLogUpdate) (r : DailyLog) :
    (if keyMatch uid date r then applyDailyLogUpdate r u else r).user_id = r.user_id ∧
    (if keyMatch uid date r then applyDailyLogUpdate r u else r).date = r.date := by
  by_cases h : keyMatch uid date r <;> simp [h, applyDailyLogUpdate]

/-- Rows outside the upserted key are untouched by the update map. -/
theorem filter_notkey_map_upsert (uid date : String) (u : DailyLogUpdate)
    (l : List DailyLog) :
    (l.map (fun r => if keyMatch uid date r then applyDailyLogUpdate r u else r)).filter
        (fun r => !keyMatch uid date r) =
      l.filter (fun r => !keyMatch uid date r) := by
  induction l with
  | nil => rfl
  | cons a as ih =>
    by_cases h : keyMatch uid date a
    · have h' : keyMatch uid date (applyDailyLogUpdate a u) = true := by
        rw [keyMatch_applyDailyLogUpdate]
        exact h
      simp [List.filter_cons, h, h', ih]
    · simp [List.filter_cons, h, ih]

/-- C9: `upsertDailyLog` keeps the one-row-per-(user, date) invariant,
leaves every row of any other key exactly as it was, and on an existing
row overwrites only the columns present in the updates object — every
absent column keeps its previous value, and the key columns are never
touched. -/
theorem upsertDailyLog_frame (table : List DailyLog) (uid date : String)
    (u : DailyLogUpdate) (hu : uniqueKey table) :
    uniqueKey (upsertDailyLog table uid date u) ∧
    (upsertDailyLog table uid date u).filter (fun r => !keyMatch uid date r) =
      table.filter (fun r => !keyMatch uid date r) ∧
    ∀ e, getTodayLog table uid date = some e →
      getTodayLog (upsertDailyLog table uid date u) uid date =
        some (applyDailyLogUpdate e u) ∧
      (applyDailyLogUpdate e u).user_id = e.user_id ∧
      (applyDailyLogUpdate e u).date = e.date ∧
      (u.scores = none → (applyDailyLogUpdate e u).scores = e.scores) ∧
      (u.total_score = none →
        (applyDailyLogUpdate e u).total_score = e.total_score) ∧
      (u.tomorrow_locked = none →
        (applyDailyLogUpdate e u).tomorrow_locked = e.tomorrow_locked) ∧
      (u.tomorrow_plan = none →
        (applyDailyLogUpdate e u).tomorrow_plan = e.tomorrow_plan) ∧
      (u.miss_reason = none →
        (applyDailyLogUpdate e u).miss_reason = e.miss_reason) ∧
      (u.notes = none → (applyDailyLogUpdate e u).notes = e.notes) := by
  refine ⟨?_, ?_, ?_⟩
  · unfold upsertDailyLog
    cases hf : table.find? (keyMatch uid date) with
    | none =>
      unfold uniqueKey
      rw [List.pairwise_append]
      refine ⟨hu, List.pairwise_singleton _ _, ?_⟩
      intro a ha b hb
      have hb' : b = newDailyLog uid date u := by simpa using hb
      subst hb'
      have hk := List.find?_eq_none.mp hf a ha
      intro hcontra
      rcases hcontra with ⟨h1, h2⟩
      apply hk
      simp only [keyMatch, newDailyLog] at h1 h2 ⊢
      simp [h1, h2]
    | some e =>
      unfold uniqueKey
      rw [List.pairwise_map]
      apply List.Pairwise.imp ?_ hu
      intro a b hab hcontra
      apply hab
      have h1 := hcontra.1
      have h2 := hcontra.2
      rw [(upsertRowMap_key uid date u a).1, (upsertRowMap_key uid date u b).1] at h1
      rw [(upsertRowMap_key uid date u a).2, (upsertRowMap_key uid date u b).2] at h2
      exact ⟨h1, h2⟩
  · unfold upsertDailyLog
    cases hf : table.find? (keyMatch uid date) with
    | none =>
      rw [List.filter_append]
      have hnew : ([newDailyLog uid date u]).filter (fun r => !keyMatch uid date r) = [] := by
        simp [keyMatch, newDailyLog]
      rw [hnew, List.append_nil]
    | some e =>
      exact filter_notkey_map_upsert uid date u table
  · intro e he
    have h := getTodayLog_upsert table uid date u
    rw [he] at h
    refine ⟨h, rfl, rfl, ?_, ?_, ?_, ?_, ?_, ?_⟩ <;>
      · intro hn
        simp [applyDailyLogUpdate, hn]

/-- Witness for C9: a notes-only update against a one-row table leaves
all other rows and every other column of the row unchanged. -/
theorem upsertDailyLog_frame_witness :
    (upsertDailyLog
        [{ user_id := "u1", date := "2024-01-01", scores := [("walk", 1)],
           total_score := 1, tomorrow_locked := false, tomorrow_plan := none,
           miss_reason := none, notes := none }]
        "u1" "2024-01-01" { notes := some (some "DOWNSHIFT: bad day") }).filter
        (fun r => !keyMatch "u1" "2024-01-01" r) =
      ([{ user_id := "u1", date := "2024-01-01", scores := [("walk", 1)],
          total_score := 1, tomorrow_locked := false, tomorrow_plan := none,
          miss_reason := none, notes := none }] : List DailyLog).filter
        (fun r => !keyMatch "u1" "2024-01-01" r) ∧
    (applyDailyLogUpdate
        { user_id := "u1", date := "2024-01-01", scores := [("walk", 1)],
          total_score := 1, tomorrow_locked := false, tomorrow_plan := none,
          miss_reason := none, notes := none }
        { notes := some (some "DOWNSHIFT: bad day") }).total_score = 1 := by
  have h := upsertDailyLog_frame
    [{ user_id := "u1", date := "2024-01-01", scores := [("walk", 1)],
       total_score := 1, tomorrow_locked := false, tomorrow_plan := none,
       miss_reason := none, notes := none }]
    "u1" "2024-01-01" { notes := some (some "DOWNSHIFT: bad day") }
    (by simp [uniqueKey])
  refine ⟨h.2.1, ?_⟩
  exact (h.2.2 _ rfl).2.2.2.2.1 rfl
